import Mathlib

/-!
Verification development for `src/main_bench.py` of the EA-LSTM regional
modeling benchmark. Numeric values are modelled as exact rationals, tensors as
lists of rationals, and the nonlinear activations (sigmoid, tanh) as abstract
rational functions, so that every definition stays executable. Fallible parts
of the pipeline are modelled with `Option`/`Except`.
-/

namespace MainBench

/-- Dot product of two rational vectors (one row of a matrix-vector product). -/
def dot (xs ys : List ℚ) : ℚ := ((xs.zip ys).map (fun p => p.1 * p.2)).sum

/-- Matrix-vector product; a matrix is a list of rows. -/
def matvec (w : List (List ℚ)) (x : List ℚ) : List ℚ := w.map (fun row => dot row x)

/-- Elementwise vector addition. -/
def vadd (xs ys : List ℚ) : List ℚ := List.zipWith (fun a b => a + b) xs ys

/-- Elementwise (Hadamard) vector product. -/
def vmul (xs ys : List ℚ) : List ℚ := List.zipWith (fun a b => a * b) xs ys

/-- Modelled from the spec: the repository imports `papercode.ealstm.EALSTM`,
whose source file is not under `src/`. Weight matrices and biases of the
Entity-Aware cell, following the gate equations of spec section 4.1. -/
structure EALSTMParams where
  w_i : List (List ℚ)
  b_i : List ℚ
  w_f : List (List ℚ)
  u_f : List (List ℚ)
  b_f : List ℚ
  w_g : List (List ℚ)
  u_g : List (List ℚ)
  b_g : List ℚ
  w_o : List (List ℚ)
  u_o : List (List ℚ)
  b_o : List ℚ

/-- Modelled from the spec: the input gate `i = sigmoid(W_i x_static + b_i)` of
the Entity-Aware cell (spec section 4.1); it reads only the static attribute
vector. The activation `sig` is an abstract rational function. -/
def input_gate (sig : ℚ → ℚ) (p : EALSTMParams) (x_s : List ℚ) : List ℚ :=
  (vadd (matvec p.w_i x_s) p.b_i).map sig

/-- Modelled from the spec: one timestep of the Entity-Aware cell given an
already computed input-gate activation `i` (spec section 4.1). -/
def ealstm_step (sig tanh_ : ℚ → ℚ) (p : EALSTMParams) (i : List ℚ)
    (hc : List ℚ × List ℚ) (x_d : List ℚ) : List ℚ × List ℚ :=
  let f := (vadd (vadd (matvec p.w_f x_d) (matvec p.u_f hc.1)) p.b_f).map sig
  let g := (vadd (vadd (matvec p.w_g x_d) (matvec p.u_g hc.1)) p.b_g).map tanh_
  let o := (vadd (vadd (matvec p.w_o x_d) (matvec p.u_o hc.1)) p.b_o).map sig
  let c2 := vadd (vmul f hc.2) (vmul i g)
  (vmul o (c2.map tanh_), c2)

/-- Run a step function over a dynamic input sequence from the all-zero initial
hidden and cell state of size `n`, collecting the state after every timestep. -/
def run_states (step : (List ℚ × List ℚ) → List ℚ → (List ℚ × List ℚ)) (n : ℕ)
    (seq : List (List ℚ)) : List (List ℚ × List ℚ) :=
  (seq.foldl (fun acc x_d =>
      let hc2 := step acc.2 x_d
      (acc.1 ++ [hc2], hc2)) ([], (List.replicate n 0, List.replicate n 0))).1

/-- Modelled from the spec: forward pass of the Entity-Aware cell with the
input gate computed once per sequence and reused at every timestep
(spec section 4.1, the cached variant). -/
def ealstm_forward_cached (sig tanh_ : ℚ → ℚ) (p : EALSTMParams) (n : ℕ)
    (x_s : List ℚ) (seq : List (List ℚ)) : List (List ℚ × List ℚ) :=
  let i := input_gate sig p x_s
  run_states (fun hc x_d => ealstm_step sig tanh_ p i hc x_d) n seq

/-- Modelled from the spec: forward pass of the Entity-Aware cell with the
input gate recomputed from the static attributes independently at every
timestep (spec section 4.1, the recomputed variant; all gate formulas are
inlined in the per-step function). -/
def ealstm_forward_recomputed (sig tanh_ : ℚ → ℚ) (p : EALSTMParams) (n : ℕ)
    (x_s : List ℚ) (seq : List (List ℚ)) : List (List ℚ × List ℚ) :=
  run_states (fun hc x_d =>
    let i := (vadd (matvec p.w_i x_s) p.b_i).map sig
    let f := (vadd (vadd (matvec p.w_f x_d) (matvec p.u_f hc.1)) p.b_f).map sig
    let g := (vadd (vadd (matvec p.w_g x_d) (matvec p.u_g hc.1)) p.b_g).map tanh_
    let o := (vadd (vadd (matvec p.w_o x_d) (matvec p.u_o hc.1)) p.b_o).map sig
    let c2 := vadd (vmul f hc.2) (vmul i g)
    (vmul o (c2.map tanh_), c2)) n seq

/-- The learning-rate table of `train` (src/main_bench.py line 539):
epoch 11 maps to 5e-4 and epoch 21 maps to 1e-4. -/
def learning_rates : List (ℕ × ℚ) := [(11, 5/10000), (21, 1/10000)]

/-- The learning-rate update at the top of the epoch loop (src/main_bench.py
lines 542-545): if the epoch number is a key of `learning_rates`, the
optimizer's learning rate is set to the mapped value, otherwise kept. -/
def set_learning_rate (lr : ℚ) (epoch : ℕ) : ℚ :=
  match learning_rates.lookup epoch with
  | some v => v
  | none => lr

/-- The learning rate in effect while epoch `e` trains: the result of applying
the per-epoch update for epochs 1 up to `e` to the configured initial rate. -/
def lr_for_epoch (lr0 : ℚ) (e : ℕ) : ℚ :=
  (List.range' 1 e).foldl set_learning_rate lr0

/-- Optimizer state visible to the epoch loop: the model parameters and the
current learning rate of the parameter group. -/
structure TrainState (P : Type) where
  params : P
  lr : ℚ

/-- The epoch loop of `train` (src/main_bench.py lines 541-554): each epoch
first applies the learning-rate update, then runs `train_epoch` over the
epoch's batches. The per-batch optimizer step is abstracted as `upd`, which may
depend on the current parameters, the learning rate and the batch; `batches e`
is the batch stream of epoch `e`. -/
def train_loop {P B : Type} (upd : P → ℚ → B → P) (batches : ℕ → List B)
    (epochs : ℕ) (lr0 : ℚ) (p0 : P) : TrainState P :=
  (List.range' 1 epochs).foldl (fun s e =>
    let lr := set_learning_rate s.lr e
    TrainState.mk ((batches e).foldl (fun p b => upd p lr b) s.params) lr)
    (TrainState.mk p0 lr0)

/-- The per-batch phases of `train_epoch` (src/main_bench.py lines 594-650):
zero the gradients, forward pass, loss computation, backward pass, then
gradient clipping plus optimizer step, each acting on the training state `S`. -/
structure EpochPhases (S B : Type) where
  zero_grad : S → S
  forward : S → B → S
  loss : S → B → S
  backward : S → S
  clip_and_step : S → S

/-- The batch loop of `train_epoch` with every time measurement removed: the
five phases are applied in source order to each batch. -/
def train_epoch_plain {S B : Type} (ph : EpochPhases S B) (batches : List B)
    (s0 : S) : S :=
  batches.foldl (fun s b =>
    ph.clip_and_step (ph.backward (ph.loss (ph.forward (ph.zero_grad s) b) b))) s0

/-- The six wall-clock accumulators of `train_epoch`
(src/main_bench.py lines 586-591). -/
structure EpochTimers where
  t_zero : Int
  t_forward : Int
  t_loss : Int
  t_backward : Int
  t_opt : Int
  t_mist : Int

/-- `train_epoch` as written in src/main_bench.py lines 581-650: each phase is
bracketed by `time.time_ns()` reads and the elapsed time is added to the
matching accumulator; the function returns the sum of all six accumulators.
The clock is modelled as a stream of readings consumed left to right. Line 589
of the source initializes `t_backward_time_total` with no right-hand side,
which is a syntax error in the source; this embedding uses the evidently
intended initializer `0` from the neighbouring lines. -/
def train_epoch_timed_step {S B : Type} (ph : EpochPhases S B) (clock : ℕ → Int)
    (acc : S × EpochTimers × ℕ) (b : B) : S × EpochTimers × ℕ :=
  let t1 := clock acc.2.2
  let s1 := ph.zero_grad acc.1
  let t2 := clock (acc.2.2 + 1)
  let tm1 := EpochTimers.mk (acc.2.1.t_zero + (t2 - t1)) acc.2.1.t_forward
    acc.2.1.t_loss acc.2.1.t_backward acc.2.1.t_opt acc.2.1.t_mist
  let t3 := clock (acc.2.2 + 2)
  let s2 := ph.forward s1 b
  let t4 := clock (acc.2.2 + 3)
  let tm2 := EpochTimers.mk tm1.t_zero (tm1.t_forward + (t4 - t3)) tm1.t_loss
    tm1.t_backward tm1.t_opt tm1.t_mist
  let t5 := clock (acc.2.2 + 4)
  let s3 := ph.loss s2 b
  let t6 := clock (acc.2.2 + 5)
  let tm3 := EpochTimers.mk tm2.t_zero tm2.t_forward (tm2.t_loss + (t6 - t5))
    tm2.t_backward tm2.t_opt tm2.t_mist
  let t7 := clock (acc.2.2 + 6)
  let s4 := ph.backward s3
  let t8 := clock (acc.2.2 + 7)
  let tm4 := EpochTimers.mk tm3.t_zero tm3.t_forward tm3.t_loss
    (tm3.t_backward + (t8 - t7)) tm3.t_opt tm3.t_mist
  let t9 := clock (acc.2.2 + 8)
  let s5 := ph.clip_and_step s4
  let t10 := clock (acc.2.2 + 9)
  let tm5 := EpochTimers.mk tm4.t_zero tm4.t_forward tm4.t_loss tm4.t_backward
    (tm4.t_opt + (t10 - t9)) tm4.t_mist
  (s5, tm5, acc.2.2 + 10)

/-- The batch loop of `train_epoch` as instrumented in the source: fold the
timed step over the batches from the zeroed accumulators, return the final
training state and the sum of the six time buckets (src/main_bench.py
lines 586-650). -/
def train_epoch_timed {S B : Type} (ph : EpochPhases S B) (clock : ℕ → Int)
    (batches : List B) (s0 : S) : S × Int :=
  let r := batches.foldl (train_epoch_timed_step ph clock)
    (s0, EpochTimers.mk 0 0 0 0 0 0, 0)
  (r.1, r.2.1.t_zero + r.2.1.t_forward + r.2.1.t_loss + r.2.1.t_backward +
    r.2.1.t_opt + r.2.1.t_mist)

/-- One sample of a basin's evaluation stream: the dynamic input sequence
(abstract type `δ`), the normalized static attribute vector at timestep 0
(`x_s[:, 0, :]` is all the forward pass reads), and the discharge observation
aligned to the last timestep. -/
structure EvalRow (δ : Type) where
  x_d : δ
  x_s : List ℚ
  y : ℚ

/-- The accumulation loop shared verbatim by `evaluate_basin`
(src/main_bench.py lines 741-757) and `eval_with_added_noise` (lines 868-880):
predictions and observations start as `None` and every batch's model outputs
and targets are concatenated onto them; `none` models the `None` that survives
an empty loader. The model `m` maps a dynamic input and a static vector to the
raw network prediction. -/
def gather_step {δ : Type} (m : δ → List ℚ → ℚ)
    (acc : Option (List ℚ × List ℚ)) (batch : List (EvalRow δ)) :
    Option (List ℚ × List ℚ) :=
  let p := batch.map (fun r => m r.x_d r.x_s)
  let o := batch.map (fun r => r.y)
  match acc with
  | none => some (p, o)
  | some po => some (po.1 ++ p, po.2 ++ o)

/-- The whole accumulation loop: fold `gather_step` over the batches starting
from `None`. -/
def gather {δ : Type} (m : δ → List ℚ → ℚ) (batches : List (List (EvalRow δ))) :
    Option (List ℚ × List ℚ) :=
  batches.foldl (gather_step m) none

/-- All raw model outputs of a batch list, in loader order. -/
def all_preds {δ : Type} (m : δ → List ℚ → ℚ)
    (batches : List (List (EvalRow δ))) : List ℚ :=
  batches.flatMap (fun b => b.map (fun r => m r.x_d r.x_s))

/-- All observations of a batch list, in loader order. -/
def all_obs {δ : Type} (batches : List (List (EvalRow δ))) : List ℚ :=
  batches.flatMap (fun b => b.map (fun r => r.y))

/-- Modelled from the spec: `papercode.datautils.rescale_features` is not under
`src/`; spec section 4.5 says outputs are rescaled from normalized training
space back to physical discharge units using stored feature statistics,
modelled as the affine map `x * std + mean` with the fixed output statistics. -/
def rescale_features (mean std : ℚ) (xs : List ℚ) : List ℚ :=
  xs.map (fun x => x * std + mean)

/-- `preds[preds < 0] = 0` (src/main_bench.py lines 762 and 886): every
negative entry is set to zero and every other entry is left untouched. -/
def clamp_neg (xs : List ℚ) : List ℚ := xs.map (fun x => if x < 0 then 0 else x)

/-- `evaluate_basin` (src/main_bench.py lines 719-764): concatenate model
outputs and observations over all batches, rescale the predictions to physical
units, set negative discharges to zero, and return the pair `(preds, obs)`. -/
def evaluate_basin {δ : Type} (m : δ → List ℚ → ℚ) (mean std : ℚ)
    (batches : List (List (EvalRow δ))) : Option (List ℚ × List ℚ) :=
  (gather m batches).map (fun po =>
    (clamp_neg (rescale_features mean std po.1), po.2))

/-- The pre-clamp predictions of `evaluate_basin`: model outputs concatenated
over all batches and rescaled, before `preds[preds < 0] = 0` runs. -/
def raw_rescaled {δ : Type} (m : δ → List ℚ → ℚ) (mean std : ℚ)
    (batches : List (List (EvalRow δ))) : List ℚ :=
  rescale_features mean std (all_preds m batches)

/-- Modelled from the spec: `papercode.metrics.calc_nse` is not under `src/`;
spec section 4.5 defines NSE = 1 - sum (obs - sim)^2 / sum (obs - mean obs)^2
over the given arrays. -/
def calc_nse (obs sim : List ℚ) : ℚ :=
  let mu := obs.sum / (obs.length : ℚ)
  1 - ((obs.zip sim).map (fun p => (p.1 - p.2)^2)).sum /
      ((obs.map (fun o => (o - mu)^2)).sum)

/-- The sentinel mask of `eval_with_added_noise` (src/main_bench.py line 888):
`obs[obs >= 0]` and `preds[obs >= 0]` keep exactly the timesteps whose
observation is non-negative, on both arrays in parallel. -/
def valid_pairs (obs preds : List ℚ) : List (ℚ × ℚ) :=
  (obs.zip preds).filter (fun p => 0 ≤ p.1)

/-- `calc_nse(obs[obs >= 0], preds[obs >= 0])` (src/main_bench.py line 888). -/
def masked_nse (obs preds : List ℚ) : ℚ :=
  calc_nse ((valid_pairs obs preds).map Prod.fst)
    ((valid_pairs obs preds).map Prod.snd)

/-- Adding the repeated noise vector to the static inputs before the forward
pass (src/main_bench.py lines 871-873): the model reads `x_s + noise`. -/
def with_noise {δ : Type} (m : δ → List ℚ → ℚ) (noise : List ℚ) :
    δ → List ℚ → ℚ :=
  fun x_d x_s => m x_d (List.zipWith (fun a b => a + b) x_s noise)

/-- `eval_with_added_noise` (src/main_bench.py lines 849-889): run the model
over all batches with the noise vector added to the static inputs, rescale and
clamp the predictions, and return the NSE over the valid observations. -/
def eval_with_added_noise {δ : Type} (m : δ → List ℚ → ℚ) (mean std : ℚ)
    (batches : List (List (EvalRow δ))) (noise : List ℚ) : Option ℚ :=
  (gather (with_noise m noise) batches).map (fun po =>
    masked_nse po.2 (clamp_neg (rescale_features mean std po.1)))

/-- The unperturbed Evaluator's fit metric: `calc_nse` over the valid
timesteps of the `evaluate_basin` output (spec section 4.5; downstream of
`evaluate`, which stores the `(obs, preds)` table). -/
def evaluator_nse {δ : Type} (m : δ → List ℚ → ℚ) (mean std : ℚ)
    (batches : List (List (EvalRow δ))) : Option ℚ :=
  (evaluate_basin m mean std batches).map (fun po => masked_nse po.2 po.1)

/-- `n_repetitions = 50` (src/main_bench.py line 788). -/
def n_repetitions : ℕ := 50

/-- `scales = [0.1 * i for i in range(11)]` (src/main_bench.py line 789). -/
def scales : List ℚ := (List.range 11).map (fun i => (1/10) * (i : ℚ))

/-- Repetitions per scale: `range(1 if scale == 0.0 else n_repetitions)`
(src/main_bench.py line 832). -/
def rep_count (scale : ℚ) : ℕ := if scale = 0 then 1 else n_repetitions

/-- The repetition loop of `eval_robustness` for one scale
(src/main_bench.py lines 832-838): each repetition draws the next noise vector
from the stream `gen` (`np.random.normal(loc=0, scale=scale, size=27)` is
modelled as the next standard draw multiplied elementwise by `scale`), runs
`eval_with_added_noise`, and appends the NSE; the second component is the
number of draws consumed so far. -/
def robustness_scale {δ : Type} (m : δ → List ℚ → ℚ) (mean std : ℚ)
    (rows : List (EvalRow δ)) (gen : ℕ → List ℚ) (scale : ℚ) (k0 : ℕ) :
    List (Option ℚ) × ℕ :=
  (List.range (rep_count scale)).foldl (fun acc _ =>
    let noise := (gen acc.2).map (fun z => z * scale)
    (acc.1 ++ [eval_with_added_noise m mean std [rows] noise], acc.2 + 1))
    ([], k0)

/-- The per-basin scale loop of `eval_robustness`
(src/main_bench.py lines 829-838): iterate the scales in order, collecting for
each one the ordered list of NSE samples; the loader delivers the whole basin
as a single batch (`batch_size=len(ds_test)`). -/
def robustness_basin {δ : Type} (m : δ → List ℚ → ℚ) (mean std : ℚ)
    (rows : List (EvalRow δ)) (gen : ℕ → List ℚ) (k0 : ℕ) :
    List (ℚ × List (Option ℚ)) × ℕ :=
  scales.foldl (fun acc scale =>
    let r := robustness_scale m mean std rows gen scale acc.2
    (acc.1 ++ [(scale, r.1)], r.2)) ([], k0)

/-- The basin loop of `eval_robustness` (src/main_bench.py lines 816-840):
`overall_results[basin] = basin_results` for every basin in order, the noise
stream advancing across basins. -/
def eval_robustness_core {δ : Type} (m : δ → List ℚ → ℚ) (mean std : ℚ)
    (basinData : List (String × List (EvalRow δ))) (gen : ℕ → List ℚ)
    (k0 : ℕ) : List (String × List (ℚ × List (Option ℚ))) × ℕ :=
  basinData.foldl (fun acc bd =>
    let r := robustness_basin m mean std bd.2 gen acc.2
    (acc.1 ++ [(bd.1, r.1)], r.2)) ([], k0)

/-- The second definition, following the spec's words, of the per-basin
robustness output (spec section 4.6): for each scale, `rep_count` repetitions,
the repetition at offset `j` evaluating the model with the fresh noise vector
drawn at stream position `k + j`; `k` advances by the repetitions consumed. -/
def robustness_spec_list {δ : Type} (m : δ → List ℚ → ℚ) (mean std : ℚ)
    (rows : List (EvalRow δ)) (gen : ℕ → List ℚ) :
    List ℚ → ℕ → List (ℚ × List (Option ℚ))
  | [], _ => []
  | s :: ss, k =>
    (s, (List.range (rep_count s)).map (fun j =>
      eval_with_added_noise m mean std [rows] ((gen (k + j)).map (fun z => z * s))))
      :: robustness_spec_list m mean std rows gen ss (k + rep_count s)

/-- The second definition, following the spec's words, of the whole robustness
output (spec section 4.6): basin by basin, each consuming 501 fresh noise
draws (1 at scale 0.0 plus 50 at each of the ten nonzero scales). -/
def robustness_spec_basins {δ : Type} (m : δ → List ℚ → ℚ) (mean std : ℚ)
    (gen : ℕ → List ℚ) :
    List (String × List (EvalRow δ)) → ℕ → List (String × List (ℚ × List (Option ℚ)))
  | [], _ => []
  | bd :: rest, k =>
    (bd.1, robustness_spec_list m mean std bd.2 gen scales k)
      :: robustness_spec_basins m mean std gen rest (k + 501)

/-- The fields of the run configuration record `cfg.json` that the model-shape
computations and the robustness guard read. -/
structure RunCfg where
  concat_static : Bool
  no_static : Bool
  use_partial_attribs : Bool
  hidden_size : ℕ
deriving DecidableEq

/-- The error message of src/main_bench.py line 795. -/
def ealstm_only_msg : String :=
  "This function is only implemented for EA-LSTM models"

/-- `eval_robustness` (src/main_bench.py lines 767-846): after loading the run
configuration it refuses runs with `concat_static` or `no_static` set
(line 794), and only otherwise loads the attributes and the checkpoint and
runs the per-basin analysis. The attribute statistics, the loaded model and
the noise stream are abstracted as parameters that only the non-error branch
consumes. -/
def eval_robustness {δ : Type} (run_cfg : RunCfg) (m : δ → List ℚ → ℚ)
    (mean std : ℚ) (basinData : List (String × List (EvalRow δ)))
    (gen : ℕ → List ℚ) :
    Except String (List (String × List (ℚ × List (Option ℚ)))) :=
  if run_cfg.concat_static || run_cfg.no_static then
    Except.error ealstm_only_msg
  else
    Except.ok (eval_robustness_core m mean std basinData gen 0).1

/-- The shape data of the `Model` wrapper (src/main_bench.py lines 387-437)
that determine the constructed network: input sizes, hidden size, and the
cell-variant flags. -/
structure ModelShape where
  input_size_dyn : ℕ
  input_size_stat : ℕ
  hidden_size : ℕ
  concat_static : Bool
  no_static : Bool
deriving DecidableEq

/-- The model-shape computation of `train` (src/main_bench.py lines 516-529):
27 static and 32 dynamic attributes, reduced to 10 and 15 under
`use_partial_attribs`; static size 0 under `no_static`; dynamic size 5 unless
static attributes are concatenated. -/
def train_model_shape (cfg : RunCfg) : ModelShape :=
  let num_stat_attribs := if cfg.use_partial_attribs then 10 else 27
  let num_dyn_attribs := if cfg.use_partial_attribs then 15 else 32
  ModelShape.mk
    (if cfg.no_static || !cfg.concat_static then 5 else num_dyn_attribs)
    (if cfg.no_static then 0 else num_stat_attribs)
    cfg.hidden_size cfg.concat_static cfg.no_static

/-- The model-shape computation of `evaluate` (src/main_bench.py lines
676-689), written out from its own source lines. -/
def evaluate_model_shape (run_cfg : RunCfg) : ModelShape :=
  let num_stat_attribs := if run_cfg.use_partial_attribs then 10 else 27
  let num_dyn_attribs := if run_cfg.use_partial_attribs then 15 else 32
  ModelShape.mk
    (if run_cfg.no_static || !run_cfg.concat_static then 5 else num_dyn_attribs)
    (if run_cfg.no_static then 0 else num_stat_attribs)
    run_cfg.hidden_size run_cfg.concat_static run_cfg.no_static

/-- The model construction of `eval_robustness` (src/main_bench.py lines
809-812): `Model(input_size_dyn=5, input_size_stat=27, hidden_size=...)` with
`concat_static` and `no_static` left at their `False` defaults. -/
def eval_robustness_model_shape (run_cfg : RunCfg) : ModelShape :=
  ModelShape.mk 5 27 run_cfg.hidden_size false false

/-- C8: for the Entity-Aware cell, the forward pass that computes the
input-gate activation once per sequence from the static attribute vector
produces the same hidden-state and cell-state sequence as the forward pass
that recomputes the input gate independently at every timestep, for every
parameter set, activation pair, static vector and dynamic input sequence. -/
theorem c8_input_gate_time_invariant (sig tanh_ : ℚ → ℚ) (p : EALSTMParams)
    (n : ℕ) (x_s : List ℚ) (seq : List (List ℚ)) :
    ealstm_forward_cached sig tanh_ p n x_s seq
      = ealstm_forward_recomputed sig tanh_ p n x_s seq := rfl

/-- C2: with `concat_static` or `no_static` set in the loaded run
configuration, `eval_robustness` returns the capability error, whatever the
attribute statistics, the loaded model, the basin data and the noise stream
are — none of them is consumed. -/
theorem c2_capability_error {δ : Type} (run_cfg : RunCfg)
    (h : run_cfg.concat_static = true ∨ run_cfg.no_static = true) :
    ∀ (m : δ → List ℚ → ℚ) (mean std : ℚ)
      (basinData : List (String × List (EvalRow δ))) (gen : ℕ → List ℚ),
      eval_robustness run_cfg m mean std basinData gen
        = Except.error ealstm_only_msg := by
  intro m mean std basinData gen
  unfold eval_robustness
  rcases h with h | h <;> simp [h]

/-- Witness for C2 at a concrete configuration with `concat_static` set. -/
theorem c2_capability_error_witness :
    eval_robustness (RunCfg.mk true false false 256)
      (fun (_ : Unit) (_ : List ℚ) => 0) 0 1 [] (fun _ => [])
      = Except.error ealstm_only_msg :=
  c2_capability_error (RunCfg.mk true false false 256) (Or.inl rfl)
    (fun _ _ => 0) 0 1 [] (fun _ => [])

/-- C4: `evaluate` recomputes exactly the training model shape for every run
configuration, and `eval_robustness` does so for entity-aware runs without
`use_partial_attribs`; but `eval_robustness` hardcodes 27 static and 5 dynamic
inputs, so for an entity-aware run trained with `use_partial_attribs` (10
static inputs) the reconstructed shape differs from the training shape. -/
theorem c4_model_shape_reconstruction :
    (∀ cfg : RunCfg, evaluate_model_shape cfg = train_model_shape cfg)
    ∧ (∀ cfg : RunCfg, cfg.concat_static = false → cfg.no_static = false →
        cfg.use_partial_attribs = false →
        eval_robustness_model_shape cfg = train_model_shape cfg)
    ∧ eval_robustness_model_shape (RunCfg.mk false false true 256)
        ≠ train_model_shape (RunCfg.mk false false true 256) := by
  refine ⟨fun _ => rfl, ?_, by decide⟩
  rintro ⟨a, b, c, d⟩ rfl rfl rfl
  rfl

/-- Witness for C4's conditional part at a concrete full-attribute
entity-aware configuration. -/
theorem c4_model_shape_reconstruction_witness :
    eval_robustness_model_shape (RunCfg.mk false false false 128)
      = train_model_shape (RunCfg.mk false false false 128) :=
  c4_model_shape_reconstruction.2.1 (RunCfg.mk false false false 128) rfl rfl rfl

theorem range'_one_concat (e : ℕ) :
    List.range' 1 (e + 1) = List.range' 1 e ++ [e + 1] := by
  simpa [Nat.add_comm] using @List.range'_concat 1 1 e

theorem set_learning_rate_eq (lr : ℚ) (e : ℕ) :
    set_learning_rate lr e
      = if e = 11 then 5/10000 else if e = 21 then 1/10000 else lr := by
  by_cases h1 : e = 11
  · subst h1; rfl
  · by_cases h2 : e = 21
    · subst h2; rfl
    · unfold set_learning_rate learning_rates
      simp [List.lookup, beq_eq_false_iff_ne.mpr h1, beq_eq_false_iff_ne.mpr h2,
        h1, h2]

theorem lr_for_epoch_succ (lr0 : ℚ) (e : ℕ) :
    lr_for_epoch lr0 (e + 1) = set_learning_rate (lr_for_epoch lr0 e) (e + 1) := by
  unfold lr_for_epoch
  rw [range'_one_concat, List.foldl_append]
  rfl

theorem lr_for_epoch_formula (lr0 : ℚ) (e : ℕ) :
    lr_for_epoch lr0 e
      = if e ≤ 10 then lr0 else if e ≤ 20 then 5/10000 else 1/10000 := by
  induction e with
  | zero => simp [lr_for_epoch]
  | succ k ih =>
    rw [lr_for_epoch_succ, ih, set_learning_rate_eq]
    split_ifs <;> first | rfl | omega

theorem train_loop_succ {P B : Type} (upd : P → ℚ → B → P)
    (batches : ℕ → List B) (n : ℕ) (lr0 : ℚ) (p0 : P) :
    train_loop upd batches (n + 1) lr0 p0 =
      TrainState.mk
        ((batches (n + 1)).foldl
          (fun p b =>
            upd p (set_learning_rate (train_loop upd batches n lr0 p0).lr (n + 1)) b)
          (train_loop upd batches n lr0 p0).params)
        (set_learning_rate (train_loop upd batches n lr0 p0).lr (n + 1)) := by
  unfold train_loop
  rw [range'_one_concat, List.foldl_append]
  rfl

theorem train_loop_lr {P B : Type} (upd : P → ℚ → B → P) (batches : ℕ → List B)
    (n : ℕ) (lr0 : ℚ) (p0 : P) :
    (train_loop upd batches n lr0 p0).lr = lr_for_epoch lr0 n := by
  induction n with
  | zero => rfl
  | succ k ih => rw [train_loop_succ, lr_for_epoch_succ, ih]

theorem train_loop_params {P B : Type} (upd : P → ℚ → B → P)
    (batches : ℕ → List B) (n : ℕ) (lr0 : ℚ) (p0 : P) :
    (train_loop upd batches n lr0 p0).params =
      (List.range' 1 n).foldl
        (fun p e => (batches e).foldl (fun p b => upd p (lr_for_epoch lr0 e) b) p)
        p0 := by
  induction n with
  | zero => rfl
  | succ k ih =>
    rw [train_loop_succ, range'_one_concat, List.foldl_append]
    simp only [List.foldl_cons, List.foldl_nil]
    rw [train_loop_lr, ← lr_for_epoch_succ, ih]

/-- C9: during training the learning rate is a step function of the epoch
number alone — the final learning rate and every epoch's parameter updates use
`lr_for_epoch`, which equals the configured initial rate for epochs 1-10,
5e-4 for epochs 11-20 and 1e-4 from epoch 21 on — independent of the batch
streams, the update rule and the parameters. -/
theorem c9_learning_rate_schedule {P B : Type} (upd : P → ℚ → B → P)
    (batches : ℕ → List B) (epochs : ℕ) (lr0 : ℚ) (p0 : P) :
    (train_loop upd batches epochs lr0 p0).lr = lr_for_epoch lr0 epochs
    ∧ (train_loop upd batches epochs lr0 p0).params =
        (List.range' 1 epochs).foldl
          (fun p e => (batches e).foldl (fun p b => upd p (lr_for_epoch lr0 e) b) p)
          p0
    ∧ ∀ e : ℕ, lr_for_epoch lr0 e
        = if e ≤ 10 then lr0 else if e ≤ 20 then 5/10000 else 1/10000 :=
  ⟨train_loop_lr upd batches epochs lr0 p0,
    train_loop_params upd batches epochs lr0 p0,
    fun e => lr_for_epoch_formula lr0 e⟩

theorem timed_foldl_fst {S B : Type} (ph : EpochPhases S B) (clock : ℕ → Int) :
    ∀ (batches : List B) (s0 : S) (tm : EpochTimers) (k : ℕ),
      (batches.foldl (train_epoch_timed_step ph clock) (s0, tm, k)).1
        = train_epoch_plain ph batches s0 := by
  intro batches
  induction batches with
  | nil => intro s0 tm k; rfl
  | cons b rest ih =>
    intro s0 tm k
    simp only [List.foldl_cons]
    have h2 := ih (train_epoch_timed_step ph clock (s0, tm, k) b).1
      (train_epoch_timed_step ph clock (s0, tm, k) b).2.1
      (train_epoch_timed_step ph clock (s0, tm, k) b).2.2
    rw [show ((train_epoch_timed_step ph clock (s0, tm, k) b).1,
        (train_epoch_timed_step ph clock (s0, tm, k) b).2.1,
        (train_epoch_timed_step ph clock (s0, tm, k) b).2.2)
        = train_epoch_timed_step ph clock (s0, tm, k) b from rfl] at h2
    rw [h2]
    rfl

/-- C3: the wall-clock instrumentation of the training loop is observational —
for every phase implementation, batch stream and clock, the training state
(parameters, losses, predictions, all folded into `S`) produced by the
instrumented `train_epoch` loop equals the state produced by the same loop
with all time measurements removed, whatever readings the clock delivers. -/
theorem c3_timing_observational {S B : Type} (ph : EpochPhases S B)
    (clock : ℕ → Int) (batches : List B) (s0 : S) :
    (train_epoch_timed ph clock batches s0).1 = train_epoch_plain ph batches s0 :=
  timed_foldl_fst ph clock batches s0 (EpochTimers.mk 0 0 0 0 0 0) 0

theorem gather_step_some {δ : Type} (m : δ → List ℚ → ℚ) (p o : List ℚ)
    (batch : List (EvalRow δ)) :
    gather_step m (some (p, o)) batch
      = some (p ++ batch.map (fun r => m r.x_d r.x_s),
          o ++ batch.map (fun r => r.y)) := rfl

theorem gather_from_some {δ : Type} (m : δ → List ℚ → ℚ) :
    ∀ (batches : List (List (EvalRow δ))) (p o : List ℚ),
      batches.foldl (gather_step m) (some (p, o))
        = some (p ++ all_preds m batches, o ++ all_obs batches) := by
  intro batches
  induction batches with
  | nil => intro p o; simp [all_preds, all_obs]
  | cons b bs ih =>
    intro p o
    simp only [List.foldl_cons, gather_step_some]
    rw [ih]
    simp [all_preds, all_obs, List.append_assoc]

theorem gather_eq_cons {δ : Type} (m : δ → List ℚ → ℚ) (b : List (EvalRow δ))
    (bs : List (List (EvalRow δ))) :
    gather m (b :: bs) = some (all_preds m (b :: bs), all_obs (b :: bs)) := by
  unfold gather
  simp only [List.foldl_cons]
  rw [show gather_step m none b
      = some (b.map (fun r => m r.x_d r.x_s), b.map (fun r => r.y)) from rfl,
    gather_from_some]
  simp [all_preds, all_obs]

theorem all_preds_congr {δ : Type} (m1 m2 : δ → List ℚ → ℚ) :
    ∀ batches : List (List (EvalRow δ)),
      (∀ b ∈ batches, ∀ r ∈ b, m1 r.x_d r.x_s = m2 r.x_d r.x_s) →
      all_preds m1 batches = all_preds m2 batches := by
  intro batches
  induction batches with
  | nil => intro _; rfl
  | cons b bs ih =>
    intro h
    have h1 : b.map (fun r => m1 r.x_d r.x_s) = b.map (fun r => m2 r.x_d r.x_s) :=
      List.map_congr_left (fun r hr => h b (List.mem_cons_self b bs) r hr)
    have h2 : all_preds m1 bs = all_preds m2 bs :=
      ih (fun bb hbb r hr => h bb (List.mem_cons_of_mem b hbb) r hr)
    unfold all_preds at h2 ⊢
    simp only [List.flatMap_cons]
    rw [h1, h2]

theorem gather_congr {δ : Type} (m1 m2 : δ → List ℚ → ℚ)
    (batches : List (List (EvalRow δ)))
    (h : ∀ b ∈ batches, ∀ r ∈ b, m1 r.x_d r.x_s = m2 r.x_d r.x_s) :
    gather m1 batches = gather m2 batches := by
  cases batches with
  | nil => rfl
  | cons b bs =>
    rw [gather_eq_cons, gather_eq_cons, all_preds_congr m1 m2 (b :: bs) h]

theorem evaluate_basin_some {δ : Type} (m : δ → List ℚ → ℚ) (mean std : ℚ)
    (batches : List (List (EvalRow δ))) (p o : List ℚ)
    (h : evaluate_basin m mean std batches = some (p, o)) :
    p = clamp_neg (rescale_features mean std (all_preds m batches))
    ∧ o = all_obs batches := by
  cases batches with
  | nil => simp [evaluate_basin, gather] at h
  | cons b bs =>
    unfold evaluate_basin at h
    rw [gather_eq_cons] at h
    rw [Option.map_some', Option.some.injEq, Prod.mk.injEq] at h
    exact ⟨h.1.symm, h.2.symm⟩

/-- C5: in `evaluate_basin` (and through it in `eval_with_added_noise`, which
runs the same rescale-and-clamp pipeline before the metric), every prediction
that is negative after rescaling is exactly 0 in the returned prediction
array, and every non-negative one is returned unchanged. -/
theorem c5_negative_predictions_clamped {δ : Type} (m : δ → List ℚ → ℚ)
    (mean std : ℚ) (batches : List (List (EvalRow δ))) (p o : List ℚ)
    (h : evaluate_basin m mean std batches = some (p, o)) :
    p = clamp_neg (raw_rescaled m mean std batches)
    ∧ (∀ i : ℕ, i < (raw_rescaled m mean std batches).length →
        ((raw_rescaled m mean std batches).getD i 0 < 0 → p.getD i 0 = 0)
        ∧ (0 ≤ (raw_rescaled m mean std batches).getD i 0 →
            p.getD i 0 = (raw_rescaled m mean std batches).getD i 0))
    ∧ ∀ noise : List ℚ,
        eval_with_added_noise m mean std batches noise
          = (evaluate_basin (with_noise m noise) mean std batches).map
              (fun po => masked_nse po.2 po.1) := by
  have hp : p = clamp_neg (raw_rescaled m mean std batches) :=
    (evaluate_basin_some m mean std batches p o h).1
  refine ⟨hp, ?_, ?_⟩
  · intro i hi
    obtain ⟨a, ha⟩ : ∃ a, (raw_rescaled m mean std batches)[i]? = some a := by
      rw [List.getElem?_eq_getElem hi]; exact ⟨_, rfl⟩
    have hA : (raw_rescaled m mean std batches).getD i 0 = a := by
      rw [List.getD_eq_getElem?_getD, ha]; rfl
    have hP : p.getD i 0 = if a < 0 then 0 else a := by
      rw [hp]
      unfold clamp_neg
      rw [List.getD_eq_getElem?_getD, List.getElem?_map, ha]
      rfl
    rw [hA, hP]
    constructor
    · intro hneg; rw [if_pos hneg]
    · intro hpos; rw [if_neg (not_lt.mpr hpos)]
  · intro noise
    unfold eval_with_added_noise evaluate_basin
    rw [Option.map_map]
    rfl

/-- Witness for C5 at a concrete basin with one negative and one non-negative
pre-clamp prediction. -/
theorem c5_negative_predictions_clamped_witness :
    ([0, 2] : List ℚ)
      = clamp_neg (raw_rescaled (fun (_ : Unit) (xs : List ℚ) => xs.headD 0) 0 1
          [[EvalRow.mk () [-3] 5, EvalRow.mk () [2] (-1)]]) :=
  (c5_negative_predictions_clamped (fun (_ : Unit) (xs : List ℚ) => xs.headD 0)
      0 1 [[EvalRow.mk () [-3] 5, EvalRow.mk () [2] (-1)]] [0, 2] [5, -1]
      (by norm_num [evaluate_basin, gather, gather_step, rescale_features,
        clamp_neg])).1

/-- C10: `evaluate_basin` returns the observation array exactly as
concatenated from the loader's batches — never rescaled, clamped or filtered,
so negative sentinels reach the stored per-basin results table unchanged — and
`eval_with_added_noise` computes its mask against those same raw concatenated
observations, only the prediction array being rescaled and clamped. -/
theorem c10_observations_passthrough {δ : Type} (m : δ → List ℚ → ℚ)
    (mean std : ℚ) (batches : List (List (EvalRow δ))) (p o : List ℚ)
    (h : evaluate_basin m mean std batches = some (p, o)) :
    o = all_obs batches
    ∧ ∀ (noise : List ℚ) (v : ℚ),
        eval_with_added_noise m mean std batches noise = some v →
        v = masked_nse (all_obs batches)
            (clamp_neg (rescale_features mean std
              (all_preds (with_noise m noise) batches))) := by
  refine ⟨(evaluate_basin_some m mean std batches p o h).2, ?_⟩
  intro noise v hv
  cases batches with
  | nil => simp [eval_with_added_noise, gather] at hv
  | cons b bs =>
    unfold eval_with_added_noise at hv
    rw [gather_eq_cons, Option.map_some', Option.some.injEq] at hv
    exact hv.symm

/-- Witness for C10 at a concrete basin whose observations contain a negative
sentinel. -/
theorem c10_observations_passthrough_witness :
    ([-7, 4] : List ℚ)
      = all_obs [[EvalRow.mk () [1] (-7), EvalRow.mk () [1] 4]] :=
  (c10_observations_passthrough (fun (_ : Unit) (xs : List ℚ) => xs.headD 0)
      0 1 [[EvalRow.mk () [1] (-7), EvalRow.mk () [1] 4]] [1, 1] [-7, 4]
      (by norm_num [evaluate_basin, gather, gather_step, rescale_features,
        clamp_neg])).1

theorem valid_pairs_append_sentinel (o1 p1 o2 p2 : List ℚ)
    (hl : o1.length = p1.length) (h2 : ∀ a ∈ o2, a < 0) :
    valid_pairs (o1 ++ o2) (p1 ++ p2) = valid_pairs o1 p1 := by
  unfold valid_pairs
  rw [List.zip_append hl, List.filter_append]
  have hnil : (o2.zip p2).filter (fun pr => decide (0 ≤ pr.1)) = [] := by
    rw [List.filter_eq_nil_iff]
    intro q hq
    have hmem := (List.of_mem_zip hq).1
    simpa using not_le.mpr (h2 q.1 hmem)
  rw [hnil, List.append_nil]

theorem masked_nse_append_sentinel (o1 p1 o2 p2 : List ℚ)
    (hl : o1.length = p1.length) (h2 : ∀ a ∈ o2, a < 0) :
    masked_nse (o1 ++ o2) (p1 ++ p2) = masked_nse o1 p1 := by
  unfold masked_nse
  rw [valid_pairs_append_sentinel o1 p1 o2 p2 hl h2]

/-- C6: the fit metric is computed only over timesteps whose observation is a
valid non-negative value: the NSE of `eval_with_added_noise` is `calc_nse`
over exactly the mask of non-negative observations, and appending rows whose
observation is a negative sentinel changes nothing — whatever the model
predicts there — so sentinels are excluded and not treated as zero. -/
theorem c6_sentinel_observations_excluded {δ : Type} (m : δ → List ℚ → ℚ)
    (mean std : ℚ) (rows extra : List (EvalRow δ)) (noise : List ℚ)
    (hextra : ∀ r ∈ extra, r.y < 0) :
    eval_with_added_noise m mean std [rows] noise
      = some (masked_nse (rows.map (fun r => r.y))
          (clamp_neg (rescale_features mean std
            (rows.map (fun r => with_noise m noise r.x_d r.x_s)))))
    ∧ eval_with_added_noise m mean std [rows ++ extra] noise
        = eval_with_added_noise m mean std [rows] noise := by
  have e0 : eval_with_added_noise m mean std [rows] noise
      = some (masked_nse (rows.map (fun r => r.y))
          (clamp_neg (rescale_features mean std
            (rows.map (fun r => with_noise m noise r.x_d r.x_s))))) := rfl
  have e1 : eval_with_added_noise m mean std [rows ++ extra] noise
      = some (masked_nse ((rows ++ extra).map (fun r => r.y))
          (clamp_neg (rescale_features mean std
            ((rows ++ extra).map (fun r => with_noise m noise r.x_d r.x_s))))) := rfl
  refine ⟨e0, ?_⟩
  rw [e0, e1, List.map_append, List.map_append]
  rw [show clamp_neg (rescale_features mean std
        (rows.map (fun r => with_noise m noise r.x_d r.x_s)
          ++ extra.map (fun r => with_noise m noise r.x_d r.x_s)))
      = clamp_neg (rescale_features mean std
          (rows.map (fun r => with_noise m noise r.x_d r.x_s)))
        ++ clamp_neg (rescale_features mean std
            (extra.map (fun r => with_noise m noise r.x_d r.x_s)))
    from by simp [clamp_neg, rescale_features]]
  rw [masked_nse_append_sentinel]
  · simp [clamp_neg, rescale_features]
  · intro a ha
    obtain ⟨r, hr, rfl⟩ := List.mem_map.mp ha
    exact hextra r hr

/-- Witness for C6: appending a sentinel-observation row to a concrete basin
leaves the NSE unchanged. -/
theorem c6_sentinel_observations_excluded_witness :
    eval_with_added_noise (fun (_ : Unit) (xs : List ℚ) => xs.headD 0) 0 1
      [[EvalRow.mk () [1] 2] ++ [EvalRow.mk () [0] (-2)]] [0]
      = eval_with_added_noise (fun (_ : Unit) (xs : List ℚ) => xs.headD 0) 0 1
          [[EvalRow.mk () [1] 2]] [0] :=
  (c6_sentinel_observations_excluded (fun (_ : Unit) (xs : List ℚ) => xs.headD 0)
      0 1 [EvalRow.mk () [1] 2] [EvalRow.mk () [0] (-2)] [0] (by decide)).2

theorem zipWith_add_replicate_zero :
    ∀ (xs : List ℚ) (n : ℕ), xs.length = n →
      List.zipWith (fun a b => a + b) xs (List.replicate n (0 : ℚ)) = xs := by
  intro xs
  induction xs with
  | nil => intro n _; simp
  | cons x xs ih =>
    intro n h
    cases n with
    | zero => simp at h
    | succ k =>
      simp only [List.replicate_succ, List.zipWith_cons_cons, add_zero]
      rw [ih k (by simpa using h)]

/-- C7: at noise scale 0.0 the drawn noise vector is the zero vector, and
`eval_with_added_noise` with the zero vector returns exactly the unperturbed
Evaluator's NSE on the same basin; in exact arithmetic the two are equal, so
in particular they agree within the 1e-6 tolerance. -/
theorem c7_zero_noise_matches_evaluator {δ : Type} (m : δ → List ℚ → ℚ)
    (mean std : ℚ) (batches : List (List (EvalRow δ))) (n : ℕ)
    (hlen : ∀ b ∈ batches, ∀ r ∈ b, r.x_s.length = n) :
    eval_with_added_noise m mean std batches (List.replicate n 0)
      = evaluator_nse m mean std batches
    ∧ ∀ a b : ℚ,
        eval_with_added_noise m mean std batches (List.replicate n 0) = some a →
        evaluator_nse m mean std batches = some b →
        |a - b| ≤ 1/1000000 := by
  have hg : gather (with_noise m (List.replicate n 0)) batches
      = gather m batches := by
    apply gather_congr
    intro b hb r hr
    unfold with_noise
    rw [zipWith_add_replicate_zero r.x_s n (hlen b hb r hr)]
  have h1 : eval_with_added_noise m mean std batches (List.replicate n 0)
      = evaluator_nse m mean std batches := by
    unfold eval_with_added_noise evaluator_nse evaluate_basin
    rw [hg, Option.map_map]
    rfl
  refine ⟨h1, ?_⟩
  intro a b ha hb
  have hab : a = b := Option.some.inj (by rw [← ha, h1, hb])
  rw [hab, sub_self, abs_zero]
  norm_num

/-- Witness for C7 at a concrete basin with one-dimensional static inputs. -/
theorem c7_zero_noise_matches_evaluator_witness :
    eval_with_added_noise (fun (_ : Unit) (xs : List ℚ) => xs.headD 0) 0 1
      [[EvalRow.mk () [2] 3]] (List.replicate 1 0)
      = evaluator_nse (fun (_ : Unit) (xs : List ℚ) => xs.headD 0) 0 1
          [[EvalRow.mk () [2] 3]] :=
  (c7_zero_noise_matches_evaluator (fun (_ : Unit) (xs : List ℚ) => xs.headD 0)
      0 1 [[EvalRow.mk () [2] 3]] 1 (by decide)).1

theorem foldl_emit {α : Type} (f : ℕ → α) :
    ∀ (n : ℕ) (l0 : List α) (k0 : ℕ),
      (List.range n).foldl (fun acc _ => (acc.1 ++ [f acc.2], acc.2 + 1)) (l0, k0)
        = (l0 ++ (List.range n).map (fun j => f (k0 + j)), k0 + n) := by
  intro n
  induction n with
  | zero => intro l0 k0; simp
  | succ v ih =>
    intro l0 k0
    rw [List.range_succ, List.foldl_append, ih]
    simp [List.range_succ, List.append_assoc, Nat.add_assoc]

theorem robustness_scale_eq {δ : Type} (m : δ → List ℚ → ℚ) (mean std : ℚ)
    (rows : List (EvalRow δ)) (gen : ℕ → List ℚ) (scale : ℚ) (k0 : ℕ) :
    robustness_scale m mean std rows gen scale k0
      = ((List.range (rep_count scale)).map (fun j =>
            eval_with_added_noise m mean std [rows]
              ((gen (k0 + j)).map (fun z => z * scale))),
          k0 + rep_count scale) := by
  unfold robustness_scale
  exact (foldl_emit (fun k =>
      eval_with_added_noise m mean std [rows] ((gen k).map (fun z => z * scale)))
    (rep_count scale) [] k0).trans (by simp)

theorem robustness_foldl_spec {δ : Type} (m : δ → List ℚ → ℚ) (mean std : ℚ)
    (rows : List (EvalRow δ)) (gen : ℕ → List ℚ) :
    ∀ (ss : List ℚ) (acc : List (ℚ × List (Option ℚ)) × ℕ),
      ss.foldl (fun acc scale =>
          let r := robustness_scale m mean std rows gen scale acc.2
          (acc.1 ++ [(scale, r.1)], r.2)) acc
        = (acc.1 ++ robustness_spec_list m mean std rows gen ss acc.2,
            acc.2 + (ss.map rep_count).sum) := by
  intro ss
  induction ss with
  | nil => intro acc; simp [robustness_spec_list]
  | cons s ss ih =>
    intro acc
    rw [List.foldl_cons, ih]
    simp [robustness_scale_eq, robustness_spec_list, List.append_assoc,
      Nat.add_assoc]

theorem scales_rep_counts :
    scales.map rep_count = 1 :: List.replicate 10 n_repetitions := by
  norm_num [scales, rep_count, n_repetitions, List.range_succ, List.replicate]

theorem scales_rep_count_sum : (scales.map rep_count).sum = 501 := by
  norm_num [scales, rep_count, n_repetitions, List.range_succ]

theorem robustness_basin_eq {δ : Type} (m : δ → List ℚ → ℚ) (mean std : ℚ)
    (rows : List (EvalRow δ)) (gen : ℕ → List ℚ) (k0 : ℕ) :
    robustness_basin m mean std rows gen k0
      = (robustness_spec_list m mean std rows gen scales k0, k0 + 501) := by
  unfold robustness_basin
  rw [robustness_foldl_spec m mean std rows gen scales ([], k0),
    scales_rep_count_sum]
  simp

theorem robustness_core_foldl {δ : Type} (m : δ → List ℚ → ℚ) (mean std : ℚ)
    (gen : ℕ → List ℚ) :
    ∀ (bd : List (String × List (EvalRow δ)))
      (acc : List (String × List (ℚ × List (Option ℚ))) × ℕ),
      bd.foldl (fun acc b =>
          let r := robustness_basin m mean std b.2 gen acc.2
          (acc.1 ++ [(b.1, r.1)], r.2)) acc
        = (acc.1 ++ robustness_spec_basins m mean std gen bd acc.2,
            acc.2 + 501 * bd.length) := by
  intro bd
  induction bd with
  | nil => intro acc; simp [robustness_spec_basins]
  | cons b rest ih =>
    intro acc
    rw [List.foldl_cons, ih]
    simp only [robustness_basin_eq, robustness_spec_basins, List.append_assoc,
      List.cons_append, List.nil_append, List.length_cons, Prod.mk.injEq,
      List.append_cancel_left_eq]
    constructor
    · trivial
    · omega

theorem eval_robustness_core_eq {δ : Type} (m : δ → List ℚ → ℚ) (mean std : ℚ)
    (basinData : List (String × List (EvalRow δ))) (gen : ℕ → List ℚ)
    (k0 : ℕ) :
    eval_robustness_core m mean std basinData gen k0
      = (robustness_spec_basins m mean std gen basinData k0,
          k0 + 501 * basinData.length) := by
  unfold eval_robustness_core
  rw [robustness_core_foldl m mean std gen basinData ([], k0)]
  simp

theorem robustness_spec_list_fst {δ : Type} (m : δ → List ℚ → ℚ) (mean std : ℚ)
    (rows : List (EvalRow δ)) (gen : ℕ → List ℚ) :
    ∀ (ss : List ℚ) (k : ℕ),
      (robustness_spec_list m mean std rows gen ss k).map Prod.fst = ss := by
  intro ss
  induction ss with
  | nil => intro k; rfl
  | cons s ss ih => intro k; simp [robustness_spec_list, ih]

theorem robustness_spec_list_lengths {δ : Type} (m : δ → List ℚ → ℚ)
    (mean std : ℚ) (rows : List (EvalRow δ)) (gen : ℕ → List ℚ) :
    ∀ (ss : List ℚ) (k : ℕ),
      (robustness_spec_list m mean std rows gen ss k).map
          (fun sl => sl.2.length) = ss.map rep_count := by
  intro ss
  induction ss with
  | nil => intro k; rfl
  | cons s ss ih => intro k; simp [robustness_spec_list, ih]

theorem robustness_spec_basins_fst {δ : Type} (m : δ → List ℚ → ℚ)
    (mean std : ℚ) (gen : ℕ → List ℚ) :
    ∀ (bd : List (String × List (EvalRow δ))) (k : ℕ),
      (robustness_spec_basins m mean std gen bd k).map Prod.fst
        = bd.map Prod.fst := by
  intro bd
  induction bd with
  | nil => intro k; rfl
  | cons b rest ih => intro k; simp [robustness_spec_basins, ih]

theorem robustness_spec_basins_scales {δ : Type} (m : δ → List ℚ → ℚ)
    (mean std : ℚ) (gen : ℕ → List ℚ) :
    ∀ (bd : List (String × List (EvalRow δ))) (k : ℕ),
      (robustness_spec_basins m mean std gen bd k).map
          (fun e => e.2.map Prod.fst) = bd.map (fun _ => scales) := by
  intro bd
  induction bd with
  | nil => intro k; rfl
  | cons b rest ih =>
    intro k
    simp [robustness_spec_basins, ih, robustness_spec_list_fst]

theorem robustness_spec_basins_lengths {δ : Type} (m : δ → List ℚ → ℚ)
    (mean std : ℚ) (gen : ℕ → List ℚ) :
    ∀ (bd : List (String × List (EvalRow δ))) (k : ℕ),
      (robustness_spec_basins m mean std gen bd k).map
          (fun e => e.2.map (fun sl => sl.2.length))
        = bd.map (fun _ => scales.map rep_count) := by
  intro bd
  induction bd with
  | nil => intro k; rfl
  | cons b rest ih =>
    intro k
    simp [robustness_spec_basins, ih, robustness_spec_list_lengths]

theorem robustness_spec_basins_total {δ : Type} (m : δ → List ℚ → ℚ)
    (mean std : ℚ) (gen : ℕ → List ℚ) :
    ∀ (bd : List (String × List (EvalRow δ))) (k : ℕ),
      (robustness_spec_basins m mean std gen bd k).map
          (fun e => (e.2.map (fun sl => sl.2.length)).sum)
        = bd.map (fun _ => 501) := by
  intro bd
  induction bd with
  | nil => intro k; rfl
  | cons b rest ih =>
    intro k
    simp [robustness_spec_basins, ih, robustness_spec_list_lengths,
      scales_rep_count_sum]

/-- C1: the basin loop of `eval_robustness` equals, basin by basin, the
spec-shaped output in which every basin is processed with exactly
`rep_count scale` repetitions per scale — one at scale 0.0 and 50 at each of
the ten nonzero scales `0.1 * i` — each repetition consuming one fresh noise
draw from the stream; the output keeps the basins in order, maps each to the
scales in order with the ordered repetition lists, and records 501 NSE samples
per basin in total. -/
theorem c1_repetition_schedule {δ : Type} (m : δ → List ℚ → ℚ) (mean std : ℚ)
    (basinData : List (String × List (EvalRow δ))) (gen : ℕ → List ℚ) :
    eval_robustness_core m mean std basinData gen 0
      = (robustness_spec_basins m mean std gen basinData 0,
          501 * basinData.length)
    ∧ scales.map rep_count = 1 :: List.replicate 10 n_repetitions
    ∧ (eval_robustness_core m mean std basinData gen 0).1.map Prod.fst
        = basinData.map Prod.fst
    ∧ (eval_robustness_core m mean std basinData gen 0).1.map
        (fun e => e.2.map Prod.fst) = basinData.map (fun _ => scales)
    ∧ (eval_robustness_core m mean std basinData gen 0).1.map
        (fun e => e.2.map (fun sl => sl.2.length))
        = basinData.map (fun _ => 1 :: List.replicate 10 n_repetitions)
    ∧ (eval_robustness_core m mean std basinData gen 0).1.map
        (fun e => (e.2.map (fun sl => sl.2.length)).sum)
        = basinData.map (fun _ => 501) := by
  have hc := eval_robustness_core_eq m mean std basinData gen 0
  refine ⟨by simpa using hc, scales_rep_counts, ?_, ?_, ?_, ?_⟩
  · rw [hc]
    exact robustness_spec_basins_fst m mean std gen basinData 0
  · rw [hc]
    exact robustness_spec_basins_scales m mean std gen basinData 0
  · rw [hc, ← scales_rep_counts]
    exact robustness_spec_basins_lengths m mean std gen basinData 0
  · rw [hc]
    exact robustness_spec_basins_total m mean std gen basinData 0

end MainBench
